import Mathlib

/-!
Verification of the `agente_koper` RAG application backend.

A shallow embedding of the pure logic of the repository:

* `backend/processing.py` — file-type dispatch, batch processing, stats;
* `backend/qa.py` — prompt assembly from system prompt, context and history;
* `backend/vector_store.py` — load / create / add logic for the Chroma index;
* `backend_api/app.py` — the FastAPI upload and ask endpoint handlers.

External library effects (PDF loading, text splitting, embedding, the Chroma
client, the chat model) are modelled as oracle parameters of type
`... → Except String ...`: the embedded functions consult them exactly where
the Python code calls the corresponding library, and an `Except.error` models
the library call raising an exception.  Filesystem state is passed explicitly
(a list of existing paths, a directory-exists flag, a directory listing).
-/

set_option autoImplicit false

namespace AgenteKoper

/-- A LangChain `Document`: a chunk of text plus metadata
(`page_content` / `metadata` as in `langchain_core.documents.Document`). -/
structure Document where
  page_content : String
  metadata : List (String × String)
deriving Repr, DecidableEq

/-- Result dictionary of `get_document_stats` (processing.py). -/
structure DocumentStats where
  total_chunks : Nat
  total_characters : Nat
  avg_chunk_size : Nat
deriving Repr, DecidableEq

/-- Embedding of `processing.get_document_stats`:
`total_chars = sum(len(doc.page_content) for doc in chunks)`, and
`avg_chunk_size = total_chars // len(chunks) if chunks else 0`
(Python `//` on naturals is `Nat.div`). -/
def get_document_stats (chunks : List Document) : DocumentStats :=
  let total_chars := (chunks.map (fun doc => doc.page_content.length)).sum
  { total_chunks := chunks.length
    total_characters := total_chars
    avg_chunk_size := if chunks.isEmpty then 0 else total_chars / chunks.length }

/-- A conversation-history entry as the Python code reads it: a dict whose
`"role"` and `"content"` keys may each be absent (`dict.get` returns `None`). -/
structure HistMessage where
  role : Option String
  content : Option String
deriving Repr, DecidableEq

/-- A prompt message tuple as built by `qa.ask_question`: a role tag
(`"system"`, `"human"`, `"assistant"`) paired with the content
(`none` models a Python `None` content). -/
abbrev PromptMsg := String × Option String

/-- Embedding of the history loop in `qa.ask_question` (and
`qa.build_prompt_with_history`): `role == "user"` appends a `("human", content)`
tuple, `role == "ai"` appends `("assistant", content)`, anything else appends
nothing. -/
def mapHistory : List HistMessage → List PromptMsg
  | [] => []
  | message :: rest =>
    if message.role = some "user" then ("human", message.content) :: mapHistory rest
    else if message.role = some "ai" then ("assistant", message.content) :: mapHistory rest
    else mapHistory rest

/-- Modelled from the spec's words, for comparison with `mapHistory`: the
per-entry role mapping — `user` → human, `ai` → assistant, any other role
value dropped — applied entrywise and order-preservingly via `filterMap`. -/
def specRoleMap (m : HistMessage) : Option PromptMsg :=
  if m.role = some "user" then some ("human", m.content)
  else if m.role = some "ai" then some ("assistant", m.content)
  else none

/-- Model of Python `str.replace` on character lists: scan left to right,
replacing each non-overlapping occurrence of `pattern`; `skip` counts matched
characters still to be consumed after a replacement was emitted.  Faithful to
Python for non-empty patterns (the only use here is the non-empty pattern
`"\x7bcontext\x7d"`). -/
def pyReplaceGo (pattern replacement : List Char) : List Char → Nat → List Char
  | [], _ => []
  | c :: cs, skip =>
    match skip with
    | Nat.succ k => pyReplaceGo pattern replacement cs k
    | 0 =>
      if pattern ≠ [] ∧ pattern.isPrefixOf (c :: cs) then
        replacement ++ pyReplaceGo pattern replacement cs (pattern.length - 1)
      else c :: pyReplaceGo pattern replacement cs 0

/-- Model of Python `system_prompt.replace(pattern, replacement)`. -/
def pyReplace (s pattern replacement : String) : String :=
  String.mk (pyReplaceGo pattern.data replacement.data s.data 0)

/-- Embedding of `context = "\n\n".join([doc.page_content for doc in docs])`
in `qa.ask_question`. -/
def joinContext (docs : List Document) : String :=
  String.intercalate "\n\n" (docs.map (fun doc => doc.page_content))

/-- Embedding of the message-list construction of `qa.ask_question`
(lines 108–124): one system tuple with the retrieved context substituted for
`"{context}"` in the system prompt, then the history loop (skipped when
`chat_history` is `None` or empty — Python `if chat_history:`), then the
current query as a final `("human", query)` tuple. -/
def ask_question_messages (system_prompt : String) (docs : List Document)
    (chat_history : Option (List HistMessage)) (query : String) : List PromptMsg :=
  let context := joinContext docs
  let messages : List PromptMsg :=
    [("system", some (pyReplace system_prompt "{context}" context))]
  let messages := messages ++
    (match chat_history with
     | none => []
     | some h => mapHistory h)
  messages ++ [("human", some query)]

theorem mapHistory_eq_filterMap (h : List HistMessage) :
    mapHistory h = h.filterMap specRoleMap := by
  induction h with
  | nil => rfl
  | cons m rest ih =>
    by_cases hu : m.role = some "user"
    · simp [mapHistory, specRoleMap, hu, ih]
    · by_cases ha : m.role = some "ai"
      · simp [mapHistory, specRoleMap, hu, ha, ih]
      · simp [mapHistory, specRoleMap, hu, ha, ih]

/-- C3: `get_document_stats` returns the list length, the summed chunk text
lengths, and their floor quotient when the list is non-empty; on the empty
list all three fields are `0` (and, the embedding being total, no division by
zero occurs — `Nat.div` is total and the zero-length branch is never taken). -/
theorem get_document_stats_correct (chunks : List Document) :
    (get_document_stats chunks).total_chunks = chunks.length ∧
    (get_document_stats chunks).total_characters =
      (chunks.map (fun doc => doc.page_content.length)).sum ∧
    (chunks ≠ [] → (get_document_stats chunks).avg_chunk_size =
      (get_document_stats chunks).total_characters / (get_document_stats chunks).total_chunks) ∧
    (chunks = [] → get_document_stats chunks = ⟨0, 0, 0⟩) := by
  refine ⟨rfl, rfl, ?_, ?_⟩
  · intro hne
    simp [get_document_stats, List.isEmpty_iff, hne]
  · intro he
    subst he
    rfl

/-- Closed witness for `get_document_stats_correct`, discharging both
hypotheses at concrete inputs: a two-chunk list (lengths 2 and 4, so the
average is `6 / 2 = 3`) and the empty list. -/
theorem get_document_stats_correct_witness :
    (get_document_stats [⟨"ab", []⟩, ⟨"abcd", []⟩]).avg_chunk_size =
      (get_document_stats [⟨"ab", []⟩, ⟨"abcd", []⟩]).total_characters /
        (get_document_stats [⟨"ab", []⟩, ⟨"abcd", []⟩]).total_chunks ∧
    get_document_stats [] = ⟨0, 0, 0⟩ :=
  ⟨(get_document_stats_correct [⟨"ab", []⟩, ⟨"abcd", []⟩]).2.2.1 (by decide),
   (get_document_stats_correct []).2.2.2 rfl⟩

/-- C2: `ask_question` builds the prompt as one system message (with the
retrieved context substituted into the system prompt at `"{context}"`),
then the history entries in original order under the `user` → human /
`ai` → assistant mapping with unrecognized roles dropped order-preservingly
(`filterMap` over the spec-side per-entry map), then the query as a final
human message; includes the spec's concrete example
`[{user,"A"},{ai,"B"}]` + query `"C"` ↦ `[system, human "A", assistant "B", human "C"]`. -/
theorem ask_question_messages_correct (system_prompt : String) (docs : List Document)
    (history : List HistMessage) (query : String) :
    ask_question_messages system_prompt docs (some history) query =
      ("system", some (pyReplace system_prompt "{context}" (joinContext docs))) ::
        (history.filterMap specRoleMap ++ [("human", some query)]) ∧
    ask_question_messages system_prompt docs none query =
      [("system", some (pyReplace system_prompt "{context}" (joinContext docs))),
       ("human", some query)] ∧
    ask_question_messages "S: {context}" [⟨"CTX", []⟩]
        (some [⟨some "user", some "A"⟩, ⟨some "ai", some "B"⟩]) "C" =
      [("system", some "S: CTX"), ("human", some "A"),
       ("assistant", some "B"), ("human", some "C")] := by
  refine ⟨?_, rfl, ?_⟩
  · simp [ask_question_messages, mapHistory_eq_filterMap]
  · rfl

/-- An uploaded file as the Streamlit/batch code sees it: a name and the
byte/text content behind `.read()`. -/
structure UFile where
  name : String
  content : String
deriving Repr, DecidableEq

/-- Model of Python `str.split(sep)` for a one-character separator, on
character lists: `""` splits to `[""]`, separators at the ends or adjacent
produce empty segments, exactly as in Python. -/
def pySplit (sep : Char) : List Char → List (List Char)
  | [] => [[]]
  | c :: cs =>
    match pySplit sep cs with
    | [] => [[]]
    | g :: gs => if c = sep then [] :: g :: gs else (c :: g) :: gs

/-- Embedding of `file.name.split(".")[-1].lower()` in
`processing.process_multiple_files` (Python `[-1]` is the last element;
`split` never returns an empty list, so the default never fires). -/
def fileExtension (name : String) : String :=
  String.mk (((pySplit '.' name.data).getLastD []).map Char.toLower)

/-- Value of `chunks` after a dispatch branch ran under the `try`: the chunks
on success, and no contribution when the call raised (the `except` clause
logs and `continue`s). -/
def chunksOrEmpty (r : Except String (List Document)) : List Document :=
  match r with
  | .ok cs => cs
  | .error _ => []

/-- Embedding of `processing.process_multiple_files`.  The three oracles
stand for `process_pdf_file`, `process_txt_file` and `process_markdown_file`
(each may raise, modelled by `Except.error`); the loop accumulates
`all_chunks` in input order, skipping unsupported extensions and per-file
failures. -/
def process_multiple_files
    (procPdf procTxt procMd : UFile → Except String (List Document)) :
    List UFile → List Document
  | [] => []
  | file :: rest =>
    let ext := fileExtension file.name
    let chunks : List Document :=
      if ext = "pdf" then chunksOrEmpty (procPdf file)
      else if ext = "txt" then chunksOrEmpty (procTxt file)
      else if ext = "md" ∨ ext = "markdown" then chunksOrEmpty (procMd file)
      else []
    chunks ++ process_multiple_files procPdf procTxt procMd rest

/-- Embedding of the deprecated `processing.process_multiple_pdfs`, whose
body is `return process_multiple_files(files)`. -/
def process_multiple_pdfs
    (procPdf procTxt procMd : UFile → Except String (List Document))
    (files : List UFile) : List Document :=
  process_multiple_files procPdf procTxt procMd files

/-- Modelled from the spec's words, for comparison with
`process_multiple_files`: the chunks a single file contributes — those
produced by the dispatched processor when the extension is supported and the
processor succeeds, and none when the extension is unsupported or the
processor fails. -/
def specFileChunks
    (procPdf procTxt procMd : UFile → Except String (List Document))
    (file : UFile) : List Document :=
  let dispatched : Option (Except String (List Document)) :=
    if fileExtension file.name = "pdf" then some (procPdf file)
    else if fileExtension file.name = "txt" then some (procTxt file)
    else if fileExtension file.name = "md" ∨ fileExtension file.name = "markdown" then
      some (procMd file)
    else none
  match dispatched with
  | some (.ok cs) => cs
  | some (.error _) => []
  | none => []

theorem pySplit_ne_nil (sep : Char) (l : List Char) : pySplit sep l ≠ [] := by
  cases l with
  | nil => simp [pySplit]
  | cons c cs =>
    simp only [pySplit]
    match pySplit sep cs with
    | [] => simp
    | g :: gs =>
      by_cases h : c = sep <;> simp [h]

theorem pySplit_no_sep (sep : Char) (l : List Char) (h : sep ∉ l) :
    pySplit sep l = [l] := by
  induction l with
  | nil => rfl
  | cons c cs ih =>
    have hc : ¬ c = sep := fun hcs => h (hcs ▸ List.mem_cons_self c cs)
    have hcs : sep ∉ cs := fun hm => h (List.mem_cons_of_mem c hm)
    simp only [pySplit, ih hcs]
    simp [hc]

theorem pySplit_two_le (sep : Char) (xs ys : List Char) :
    2 ≤ (pySplit sep (xs ++ sep :: ys)).length := by
  induction xs with
  | nil =>
    simp only [List.nil_append, pySplit]
    match h : pySplit sep ys with
    | [] => exact absurd h (pySplit_ne_nil sep ys)
    | g :: gs => simp
  | cons c cs ih =>
    simp only [List.cons_append, pySplit]
    match h : pySplit sep (cs ++ sep :: ys) with
    | [] => exact absurd h (pySplit_ne_nil sep (cs ++ sep :: ys))
    | g :: gs =>
      rw [h] at ih
      by_cases hc : c = sep
      · simp [hc] at ih ⊢
      · simp [hc] at ih ⊢
        omega

theorem getLastD_cons_of_ne_nil {α : Type} (a : α) (l : List α) (d : α) (h : l ≠ []) :
    (a :: l).getLastD d = l.getLastD d := by
  cases l with
  | nil => exact absurd rfl h
  | cons b bs => simp [List.getLastD_cons]

theorem pySplit_last_append (sep : Char) (xs ys : List Char) :
    (pySplit sep (xs ++ sep :: ys)).getLastD [] = (pySplit sep ys).getLastD [] := by
  induction xs with
  | nil =>
    simp only [List.nil_append, pySplit]
    match h : pySplit sep ys with
    | [] => exact absurd h (pySplit_ne_nil sep ys)
    | g :: gs => simp
  | cons c cs ih =>
    simp only [List.cons_append, pySplit]
    match h : pySplit sep (cs ++ sep :: ys) with
    | [] => exact absurd h (pySplit_ne_nil sep (cs ++ sep :: ys))
    | g :: gs =>
      have hlen : 2 ≤ (g :: gs).length := h ▸ pySplit_two_le sep cs ys
      have hgs : gs ≠ [] := by
        cases gs with
        | nil => simp at hlen
        | cons a as => simp
      rw [h] at ih
      show (if c = sep then [] :: g :: gs else (c :: g) :: gs).getLastD [] =
        (pySplit sep ys).getLastD []
      by_cases hc : c = sep
      · rw [if_pos hc, getLastD_cons_of_ne_nil _ _ _ (by simp)]
        exact ih
      · rw [if_neg hc, getLastD_cons_of_ne_nil _ _ _ hgs,
          ← getLastD_cons_of_ne_nil g gs [] hgs]
        exact ih

/-- C5: `process_multiple_files` returns the in-order concatenation of each
file's contribution: the dispatched processor's chunks when the extension is
`pdf`, `txt`, `md`/`markdown` and the processor succeeds, and nothing for an
unsupported extension or a failing processor — one bad file never aborts the
batch (the embedding is total and each file's contribution is independent of
the others'). -/
theorem process_multiple_files_correct
    (procPdf procTxt procMd : UFile → Except String (List Document))
    (files : List UFile) :
    process_multiple_files procPdf procTxt procMd files =
      (files.map (specFileChunks procPdf procTxt procMd)).flatten := by
  induction files with
  | nil => rfl
  | cons file rest ih =>
    simp only [process_multiple_files, List.map_cons, List.flatten_cons, ih]
    congr 1
    simp only [specFileChunks]
    by_cases h1 : fileExtension file.name = "pdf"
    · simp [h1, chunksOrEmpty]
      cases procPdf file <;> rfl
    · by_cases h2 : fileExtension file.name = "txt"
      · simp [h1, h2, chunksOrEmpty]
        cases procTxt file <;> rfl
      · by_cases h3 : fileExtension file.name = "md" ∨ fileExtension file.name = "markdown"
        · simp [h1, h2, h3, chunksOrEmpty]
          cases procMd file <;> rfl
        · simp [h1, h2, h3, chunksOrEmpty]

/-- C9: the deprecated `process_multiple_pdfs` is extensionally identical to
`process_multiple_files` (its body is a direct delegation), and in
particular, despite its name, it processes a `.txt` file through the txt
processor. -/
theorem process_multiple_pdfs_eq
    (procPdf procTxt procMd : UFile → Except String (List Document))
    (files : List UFile) :
    process_multiple_pdfs procPdf procTxt procMd files =
      process_multiple_files procPdf procTxt procMd files ∧
    process_multiple_pdfs procPdf procTxt procMd [⟨"notes.txt", "hello"⟩] =
      chunksOrEmpty (procTxt ⟨"notes.txt", "hello"⟩) := by
  constructor
  · rfl
  · show (if ("txt" : String) = "pdf" then _
          else if ("txt" : String) = "txt" then chunksOrEmpty (procTxt ⟨"notes.txt", "hello"⟩)
          else _) ++ [] = chunksOrEmpty (procTxt ⟨"notes.txt", "hello"⟩)
    simp

theorem fileExtension_no_dot (name : String) (h : '.' ∉ name.data) :
    fileExtension name = String.mk (name.data.map Char.toLower) := by
  simp [fileExtension, pySplit_no_sep '.' name.data h]

theorem fileExtension_after_dot (xs ys : List Char) (h : '.' ∉ ys) :
    fileExtension (String.mk (xs ++ '.' :: ys)) = String.mk (ys.map Char.toLower) := by
  have key : (pySplit '.' (xs ++ '.' :: ys)).getLastD [] = ys := by
    rw [pySplit_last_append, pySplit_no_sep '.' ys h]
    rfl
  show String.mk (((pySplit '.' (xs ++ '.' :: ys)).getLastD []).map Char.toLower) =
    String.mk (ys.map Char.toLower)
  rw [key]

theorem process_single_unsupported
    (procPdf procTxt procMd : UFile → Except String (List Document)) (f : UFile)
    (h1 : fileExtension f.name ≠ "pdf") (h2 : fileExtension f.name ≠ "txt")
    (h3 : fileExtension f.name ≠ "md") (h4 : fileExtension f.name ≠ "markdown") :
    process_multiple_files procPdf procTxt procMd [f] = [] := by
  simp [process_multiple_files, h1, h2, h3, h4]

/-- C10: the batch dispatcher's extension is the lowercased segment after the
last dot of the filename, so matching is case-insensitive (`"X.PDF"` reaches
the PDF processor); a dotless filename's extension is its whole lowercased
name, so such a file is skipped as unsupported — unless the name itself is
one of `pdf` / `txt` / `md` / `markdown` (a file literally named `"pdf"`
reaches the PDF processor). -/
theorem dispatch_extension_correct :
    (∀ xs ys : List Char, '.' ∉ ys →
      fileExtension (String.mk (xs ++ '.' :: ys)) = String.mk (ys.map Char.toLower)) ∧
    (∀ name : String, '.' ∉ name.data →
      fileExtension name = String.mk (name.data.map Char.toLower)) ∧
    (∀ (procPdf procTxt procMd : UFile → Except String (List Document)) (c : String),
      process_multiple_files procPdf procTxt procMd [⟨"X.PDF", c⟩] =
        chunksOrEmpty (procPdf ⟨"X.PDF", c⟩)) ∧
    (∀ (procPdf procTxt procMd : UFile → Except String (List Document)) (f : UFile),
      '.' ∉ f.name.data →
      String.mk (f.name.data.map Char.toLower) ∉ (["pdf", "txt", "md", "markdown"] : List String) →
      process_multiple_files procPdf procTxt procMd [f] = []) ∧
    (∀ (procPdf procTxt procMd : UFile → Except String (List Document)) (c : String),
      process_multiple_files procPdf procTxt procMd [⟨"pdf", c⟩] =
        chunksOrEmpty (procPdf ⟨"pdf", c⟩)) := by
  refine ⟨fileExtension_after_dot, fileExtension_no_dot, ?_, ?_, ?_⟩
  · intro procPdf procTxt procMd c
    have hx : fileExtension "X.PDF" = "pdf" := by decide
    simp [process_multiple_files, hx]
  · intro procPdf procTxt procMd f hdot hmem
    have hext := fileExtension_no_dot f.name hdot
    simp only [List.mem_cons, List.mem_singleton, not_or] at hmem
    exact process_single_unsupported procPdf procTxt procMd f
      (hext ▸ hmem.1) (hext ▸ hmem.2.1) (hext ▸ hmem.2.2.1) (hext ▸ hmem.2.2.2.1)
  · intro procPdf procTxt procMd c
    have hx : fileExtension "pdf" = "pdf" := by decide
    simp [process_multiple_files, hx]

/-- Closed witness for `dispatch_extension_correct`: the after-last-dot part
at `"X.PDF"` split as `['X'] ++ '.' :: ['P','D','F']`, and the dotless
unsupported part at a file named `"README"`. -/
theorem dispatch_extension_correct_witness :
    fileExtension (String.mk (['X'] ++ '.' :: ['P', 'D', 'F'])) =
      String.mk (['P', 'D', 'F'].map Char.toLower) ∧
    process_multiple_files (fun _ => .ok []) (fun _ => .ok []) (fun _ => .ok [])
      [⟨"README", ""⟩] = [] :=
  ⟨dispatch_extension_correct.1 ['X'] ['P', 'D', 'F'] (by decide),
   dispatch_extension_correct.2.2.2.1 (fun _ => .ok []) (fun _ => .ok []) (fun _ => .ok [])
     ⟨"README", ""⟩ (by decide) (by decide)⟩

/-- A Chroma index handle: `hid` identifies the Python object (so "returns
the same handle" is expressible), `docs` the documents it holds. -/
structure Chroma where
  hid : Nat
  docs : List Document
deriving Repr, DecidableEq

/-- Embedding of `vector_store.load_existing_vector_store`.  The filesystem
is passed as a directory-exists flag and a directory listing; the `Chroma`
constructor call is the thunk `openStore` (an `Except.error` models it
raising).  The `Option` return is total: the Python `except` clause turns any
opening failure into `None`, so nothing escapes to the caller. -/
def load_existing_vector_store (dirExists : Bool) (listing : List String)
    (openStore : Unit → Except String Chroma) : Option Chroma :=
  if dirExists && !listing.isEmpty then
    match openStore () with
    | .ok vs => some vs
    | .error _ => none
  else none

/-- Embedding of `vector_store.create_vector_store`: `Chroma.from_documents`
builds a fresh index (fresh object identity `freshId`) holding the chunks. -/
def create_vector_store (chunks : List Document) (freshId : Nat) : Chroma :=
  { hid := freshId, docs := chunks }

/-- Embedding of `vector_store.add_documents` on a Chroma handle: appends the
chunks, keeping the handle identity. -/
def add_documents (vs : Chroma) (chunks : List Document) : Chroma :=
  { vs with docs := vs.docs ++ chunks }

/-- Embedding of `vector_store.add_to_vector_store`: with a handle present
(`if vector_store:`), append to it and return the same handle; with `None`,
delegate to `create_vector_store`. -/
def add_to_vector_store (chunks : List Document) (vector_store : Option Chroma)
    (freshId : Nat) : Chroma :=
  match vector_store with
  | some vs => add_documents vs chunks
  | none => create_vector_store chunks freshId

/-- C4: `load_existing_vector_store` consults the opener only when the
persistence directory exists and is non-empty (when it does not, the result
is `none` and is independent of the opener, i.e. no open is attempted); an
opening failure also yields `none`; and the embedding's total `Option` return
type is the no-raise guarantee. -/
theorem load_existing_vector_store_correct :
    (∀ (dirExists : Bool) (listing : List String) (o1 o2 : Unit → Except String Chroma),
      ¬(dirExists = true ∧ listing ≠ []) →
      load_existing_vector_store dirExists listing o1 =
        load_existing_vector_store dirExists listing o2 ∧
      load_existing_vector_store dirExists listing o1 = none) ∧
    (∀ (dirExists : Bool) (listing : List String) (e : String),
      load_existing_vector_store dirExists listing (fun _ => .error e) = none) ∧
    (∀ (listing : List String) (vs : Chroma), listing ≠ [] →
      load_existing_vector_store true listing (fun _ => .ok vs) = some vs) := by
  refine ⟨?_, ?_, ?_⟩
  · intro dirExists listing o1 o2 hcond
    rcases Decidable.not_and_iff_or_not.mp hcond with hd | hl
    · cases dirExists
      · exact ⟨rfl, rfl⟩
      · exact absurd rfl hd
    · have : listing = [] := Decidable.not_not.mp hl
      subst this
      cases dirExists <;> exact ⟨rfl, rfl⟩
  · intro dirExists listing e
    cases dirExists
    · rfl
    · cases listing <;> rfl
  · intro listing vs hne
    cases listing with
    | nil => exact absurd rfl hne
    | cons a as => rfl

/-- Closed witness for `load_existing_vector_store_correct`: a missing
directory with a would-succeed opener still yields `none`, and an existing
non-empty directory with a succeeding opener yields that handle. -/
theorem load_existing_vector_store_correct_witness :
    load_existing_vector_store false ["chroma.sqlite3"] (fun _ => .ok ⟨7, []⟩) = none ∧
    load_existing_vector_store true ["chroma.sqlite3"] (fun _ => .ok ⟨7, []⟩) = some ⟨7, []⟩ :=
  ⟨(load_existing_vector_store_correct.1 false ["chroma.sqlite3"]
      (fun _ => .ok ⟨7, []⟩) (fun _ => .error "boom") (by simp)).2,
   load_existing_vector_store_correct.2.2 ["chroma.sqlite3"] ⟨7, []⟩ (by simp)⟩

/-- C6: with a handle provided, `add_to_vector_store` returns that same
handle (same identity) with the chunks appended to its documents; with no
handle it returns a freshly created index holding exactly the chunks. -/
theorem add_to_vector_store_correct (chunks : List Document) (freshId : Nat) :
    (∀ vs : Chroma,
      (add_to_vector_store chunks (some vs) freshId).hid = vs.hid ∧
      (add_to_vector_store chunks (some vs) freshId).docs = vs.docs ++ chunks) ∧
    (add_to_vector_store chunks none freshId = create_vector_store chunks freshId ∧
      (add_to_vector_store chunks none freshId).hid = freshId ∧
      (add_to_vector_store chunks none freshId).docs = chunks) :=
  ⟨fun _ => ⟨rfl, rfl⟩, rfl, rfl, rfl⟩

/-- Embedding of `processing.process_pdf_file`'s resource behaviour.
`tmpPath` is the fresh name picked by `tempfile.NamedTemporaryFile`,
`loadSplit` the combined outcome of `PyPDFLoader(...).load()` plus
`split_documents` (an `Except.error` models either raising), and `fs` the
set of files existing on disk before the call.  The temp file is created,
the body runs, and the `finally` clause removes the file when it exists;
the pair returned is (the call's outcome, the files existing afterwards). -/
def process_pdf_file (tmpPath : String) (loadSplit : Except String (List Document))
    (fs : List String) : Except String (List Document) × List String :=
  let fsAfterWrite := tmpPath :: fs
  let result := loadSplit
  let fsAfterCleanup :=
    if tmpPath ∈ fsAfterWrite then fsAfterWrite.erase tmpPath else fsAfterWrite
  (result, fsAfterCleanup)

/-- C8: on both exit paths of `process_pdf_file` — a normal return and an
exception from loading/splitting — the temporary file is gone when the call
completes (the filesystem is exactly as before the call), and the outcome is
the loader/splitter's own outcome. -/
theorem process_pdf_file_cleanup (tmpPath : String)
    (loadSplit : Except String (List Document)) (fs : List String)
    (hfresh : tmpPath ∉ fs) :
    (process_pdf_file tmpPath loadSplit fs).2 = fs ∧
    tmpPath ∉ (process_pdf_file tmpPath loadSplit fs).2 ∧
    (process_pdf_file tmpPath loadSplit fs).1 = loadSplit := by
  have h2 : (process_pdf_file tmpPath loadSplit fs).2 = fs := by
    show (if tmpPath ∈ tmpPath :: fs then (tmpPath :: fs).erase tmpPath
          else tmpPath :: fs) = fs
    rw [if_pos (List.mem_cons_self tmpPath fs), List.erase_cons_head]
  exact ⟨h2, by rw [h2]; exact hfresh, rfl⟩

/-- Closed witness for `process_pdf_file_cleanup`, at a raising loader, a
fresh temp path and one pre-existing file on disk. -/
theorem process_pdf_file_cleanup_witness :
    (process_pdf_file "/tmp/u1.pdf" (.error "bad pdf") ["db/chroma.sqlite3"]).2 =
      ["db/chroma.sqlite3"] ∧
    "/tmp/u1.pdf" ∉ (process_pdf_file "/tmp/u1.pdf" (.error "bad pdf") ["db/chroma.sqlite3"]).2 ∧
    (process_pdf_file "/tmp/u1.pdf" (.error "bad pdf") ["db/chroma.sqlite3"]).1 =
      .error "bad pdf" :=
  process_pdf_file_cleanup "/tmp/u1.pdf" (.error "bad pdf") ["db/chroma.sqlite3"] (by decide)

/-- The body of `backend_api.app.ask`'s `AskRequest` that the handler reads
(the float `temperature` field is threaded through to `ask_question`
unchanged and never inspected, so it is elided from the model). -/
structure AskRequest where
  query : String
  model : String
  history : Option (List HistMessage)
deriving Repr, DecidableEq

/-- Outcome of a FastAPI handler: a response value, or an `HTTPException`
with a status code and detail string. -/
inductive AskResult
  | ok (answer : String) (model : String)
  | httpError (status : Nat) (detail : String)
deriving Repr, DecidableEq

/-- Embedding of the `POST /ask` handler `backend_api.app.ask`: with no
in-memory handle (`if not vector_store:`), raise 400 before anything else;
otherwise run `ask_question` (the oracle `qa`, whose `Except.error` models it
raising) and wrap a failure as a 500. -/
def ask_endpoint (vector_store : Option Chroma) (request : AskRequest)
    (qa : Chroma → AskRequest → Except String String) : AskResult :=
  match vector_store with
  | none => .httpError 400 "Nenhum documento carregado. Faça upload primeiro."
  | some vs =>
    match qa vs request with
    | .ok answer => .ok answer request.model
    | .error e => .httpError 500 ("Erro ao gerar resposta: " ++ e)

/-- C7: with the index handle absent, `POST /ask` answers 400 with the
"no documents loaded" message, and the result is independent of the
question-answering oracle — the external model is never consulted; with a
handle present, a generation failure yields 500 and a generation success the
answer with the request's model echoed. -/
theorem ask_endpoint_correct (request : AskRequest) :
    (∀ qa1 qa2 : Chroma → AskRequest → Except String String,
      ask_endpoint none request qa1 = ask_endpoint none request qa2) ∧
    (∀ qa : Chroma → AskRequest → Except String String,
      ask_endpoint none request qa =
        .httpError 400 "Nenhum documento carregado. Faça upload primeiro.") ∧
    (∀ (vs : Chroma) (qa : Chroma → AskRequest → Except String String) (e : String),
      qa vs request = .error e →
      ask_endpoint (some vs) request qa =
        .httpError 500 ("Erro ao gerar resposta: " ++ e)) ∧
    (∀ (vs : Chroma) (qa : Chroma → AskRequest → Except String String) (a : String),
      qa vs request = .ok a →
      ask_endpoint (some vs) request qa = .ok a request.model) := by
  refine ⟨fun _ _ => rfl, fun _ => rfl, ?_, ?_⟩
  · intro vs qa e hqa
    show (match qa vs request with
          | .ok answer => AskResult.ok answer request.model
          | .error e => .httpError 500 ("Erro ao gerar resposta: " ++ e)) = _
    rw [hqa]
  · intro vs qa a hqa
    show (match qa vs request with
          | .ok answer => AskResult.ok answer request.model
          | .error e => .httpError 500 ("Erro ao gerar resposta: " ++ e)) = _
    rw [hqa]

/-- Closed witness for `ask_endpoint_correct`: a concrete request against a
one-handle store whose oracle raises, and the same oracle succeeding. -/
theorem ask_endpoint_correct_witness :
    ask_endpoint (some ⟨1, []⟩) ⟨"q", "gpt-3.5-turbo", none⟩
      (fun _ _ => .error "rate limited") =
      .httpError 500 ("Erro ao gerar resposta: " ++ "rate limited") ∧
    ask_endpoint (some ⟨1, []⟩) ⟨"q", "gpt-3.5-turbo", none⟩
      (fun _ _ => .ok "resposta") = .ok "resposta" "gpt-3.5-turbo" :=
  ⟨(ask_endpoint_correct ⟨"q", "gpt-3.5-turbo", none⟩).2.2.1 ⟨1, []⟩
      (fun _ _ => .error "rate limited") "rate limited" rfl,
   (ask_endpoint_correct ⟨"q", "gpt-3.5-turbo", none⟩).2.2.2 ⟨1, []⟩
      (fun _ _ => .ok "resposta") "resposta" rfl⟩

/-- An uploaded file as the FastAPI handler sees it (`UploadFile`):
`filename` plus the bytes behind `await file.read()`. -/
structure ApiFile where
  filename : String
  content : String
deriving Repr, DecidableEq

/-- Model of Python `str.endswith`. -/
def pyEndsWith (s suffix : String) : Bool :=
  suffix.data.isSuffixOf s.data

/-- An exception flowing inside the `try` block of
`backend_api.app.upload_documents`: either the `HTTPException(400)` the
handler itself raises for a non-PDF filename, or an exception from
processing/storing. -/
inductive UploadExn
  | http (status : Nat) (detail : String)
  | processing (msg : String)
deriving Repr, DecidableEq

/-- Python `str(e)` on the caught exception: Starlette's
`HTTPException.__str__` is `f"\x7bstatus_code\x7d: \x7bdetail\x7d"`, a plain
exception stringifies to its message. -/
def uploadExnStr : UploadExn → String
  | .http s d => toString s ++ ": " ++ d
  | .processing m => m

/-- Response model of `POST /upload`. -/
structure UploadResponse where
  status : String
  files_processed : Nat
  total_chunks : Nat
  stats : DocumentStats
deriving Repr, DecidableEq

/-- Outcome of the upload handler. -/
inductive UploadResult
  | ok (response : UploadResponse)
  | httpError (status : Nat) (detail : String)
deriving Repr, DecidableEq

/-- Embedding of the per-file loop inside the `try` of
`backend_api.app.upload_documents`: a filename not ending in `".pdf"` raises
`HTTPException(400)` (which leaves the loop), a processing failure raises,
and otherwise the chunks accumulate in order.  `proc` stands for
`process_pdf_file(BytesIO(content))`. -/
def uploadLoop (proc : ApiFile → Except String (List Document)) :
    List ApiFile → Except UploadExn (List Document)
  | [] => .ok []
  | f :: rest =>
    if !(pyEndsWith f.filename ".pdf") then
      .error (.http 400 ("Arquivo " ++ f.filename ++ " não é PDF"))
    else
      match proc f with
      | .error e => .error (.processing e)
      | .ok chunks =>
        match uploadLoop proc rest with
        | .error e => .error e
        | .ok more => .ok (chunks ++ more)

/-- Embedding of the `POST /upload` handler `backend_api.app.upload_documents`:
the empty-list 400 is raised before the `try` and reaches the client as a
400; everything the `try` block raises — including the handler's own
`HTTPException(400)` for a non-PDF filename, since FastAPI's `HTTPException`
is an `Exception` — is caught by `except Exception` and re-raised as a 500
whose detail embeds `str(e)`.  `addStore` stands for `add_to_vector_store`
(it may raise too). -/
def upload_documents (proc : ApiFile → Except String (List Document))
    (addStore : List Document → Except String Chroma)
    (files : List ApiFile) : UploadResult :=
  if files.isEmpty then .httpError 400 "Nenhum arquivo enviado"
  else
    match uploadLoop proc files with
    | .error e => .httpError 500 ("Erro ao processar: " ++ uploadExnStr e)
    | .ok all_chunks =>
      match addStore all_chunks with
      | .error e => .httpError 500 ("Erro ao processar: " ++ e)
      | .ok _ =>
        .ok ⟨"success", files.length, all_chunks.length, get_document_stats all_chunks⟩

/-- C1 (the code contradicts the claim): at the failing input — a single
uploaded file named `"doc.txt"` — the handler responds 500, not 400: its own
`HTTPException(400, "Arquivo doc.txt não é PDF")` is swallowed by the
`except Exception` clause and re-raised as
`HTTPException(500, "Erro ao processar: 400: Arquivo doc.txt não é PDF")`,
whatever the processor and store do.  The empty-list 400 (raised before the
`try`) and the 500 on a genuine processing failure behave as claimed. -/
theorem upload_non_pdf_yields_500
    (proc : ApiFile → Except String (List Document))
    (addStore : List Document → Except String Chroma) (content : String) :
    upload_documents proc addStore [⟨"doc.txt", content⟩] =
      .httpError 500 "Erro ao processar: 400: Arquivo doc.txt não é PDF" ∧
    upload_documents proc addStore [] = .httpError 400 "Nenhum arquivo enviado" ∧
    upload_documents (fun _ => .error "boom") addStore [⟨"a.pdf", content⟩] =
      .httpError 500 "Erro ao processar: boom" :=
  ⟨rfl, rfl, rfl⟩

end AgenteKoper
